import Mathlib

/-!
# Verification of the satellite overlay cache (node registry and selection)

Shallow embedding of `satellitedb`'s `overlaycache` (file `overlaycache.go`):
the node record store (`Update`, `Get`, `GetAll`, `Paginate`) and the
reputation-gated selector (`FilterNodes` with its two row queries).

Modelling conventions:
* Node identities are `Nat`; `0` is the zero identity (`storj.NodeID{}`).
* Go `int64`/`int32` values are `Int` (no arithmetic here overflows: the code
  only copies and compares them).
* Go `float64` ratio fields are `Rat`: the code only copies and compares them,
  and the single arithmetic use (`int64(float64(n) * pct)`) is modelled as
  exact rational multiplication followed by truncation toward zero.
* The backing SQL table is a `List OverlayCacheNode` in row order.  The raw
  SQL queries issued by `FilterNodes` are modelled as `List.filter` with the
  query's `WHERE` clause followed by SQLite `LIMIT` semantics (`sqlLimit`):
  a negative limit imposes no bound, a non-negative limit caps the page.
  (SQLite is the engine this query flow targets: the reputable query is not
  rebound for other engines and both queries use the SQLite-only `==`.)
  The generated data-access layer
  (`dbx`) is not part of the sources; its operations are modelled from the
  spec's backing-store interface: get by identity, create, update by
  identity, limited scan ordered by identity.
* Fallible operations return `Except`; the Go nil-pointer dereference that
  `Update` performs on a nil `Reputation` in its update branch is modelled as
  an explicit error outcome.
-/

namespace Storj

/-- `pb.NodeAddress`: network reachability sub-group. -/
structure NodeAddress where
  address : String
  transport : Int
deriving DecidableEq

/-- `pb.NodeMetadata`: operator metadata sub-group. -/
structure NodeMetadata where
  email : String
  wallet : String
deriving DecidableEq

/-- `pb.NodeRestrictions`: resource-floor sub-group. -/
structure NodeRestrictions where
  freeBandwidth : Int
  freeDisk : Int
deriving DecidableEq

/-- `pb.NodeStats`: reputation sub-group (the fields the overlay cache reads
and writes).  Go `AuditSuccessRatio`/`UptimeRatio` are the `Rat`-valued
`auditSuccessRate`/`uptimeRate` fields here (renamed, same meaning). -/
structure NodeStats where
  nodeId : Nat
  latency90 : Int
  auditSuccessRate : Rat
  uptimeRate : Rat
  auditCount : Int
  auditSuccessCount : Int
  uptimeCount : Int
  uptimeSuccessCount : Int
deriving DecidableEq

/-- `pb.Node`: the structured node-info value exposed to callers; the four
optional sub-groups are `Option`s (Go nil pointers). -/
structure Node where
  id : Nat
  nodeType : Int
  address : Option NodeAddress
  metadata : Option NodeMetadata
  restrictions : Option NodeRestrictions
  reputation : Option NodeStats
deriving DecidableEq

/-- `dbx.OverlayCacheNode`: one flattened storage row of the
`overlay_cache_nodes` table.  Go `AuditSuccessRatio`/`AuditUptimeRatio`
columns are `auditSuccessRate`/`auditUptimeRate` here. -/
structure OverlayCacheNode where
  nodeId : Nat
  nodeType : Int
  address : String
  protocol : Int
  operatorEmail : String
  operatorWallet : String
  freeBandwidth : Int
  freeDisk : Int
  latency90 : Int
  auditSuccessRate : Rat
  auditUptimeRate : Rat
  auditCount : Int
  auditSuccessCount : Int
  uptimeCount : Int
  uptimeSuccessCount : Int
deriving DecidableEq

/-- `convertOverlayNode`: maps a storage row to the structured node value,
building every sub-group and then clearing the ones sitting on their absence
sentinels (empty address; both operator fields empty; both floors negative;
negative latency).  The Go error cases (nil row, malformed identity bytes)
cannot arise in this embedding, so the function is total. -/
def convertOverlayNode (info : OverlayCacheNode) : Node :=
  let node : Node :=
    { id := info.nodeId
      nodeType := info.nodeType
      address := some { address := info.address, transport := info.protocol }
      metadata := some { email := info.operatorEmail, wallet := info.operatorWallet }
      restrictions := some { freeBandwidth := info.freeBandwidth, freeDisk := info.freeDisk }
      reputation := some
        { nodeId := info.nodeId
          latency90 := info.latency90
          auditSuccessRate := info.auditSuccessRate
          uptimeRate := info.auditUptimeRate
          auditCount := info.auditCount
          auditSuccessCount := info.auditSuccessCount
          uptimeCount := info.uptimeCount
          uptimeSuccessCount := info.uptimeSuccessCount } }
  let node := if info.address = "" then { node with address := none } else node
  let node :=
    if info.operatorEmail = "" ∧ info.operatorWallet = "" then { node with metadata := none }
    else node
  let node :=
    if info.freeBandwidth < 0 ∧ info.freeDisk < 0 then { node with restrictions := none }
    else node
  let node := if info.latency90 < 0 then { node with reputation := none } else node
  node

/-- Errors of the record store's read path: `overlay.ErrEmptyNode` is the
InvalidArgument-class "empty node ID" error, `overlay.ErrNodeNotFound` the
NotFound-class error. -/
inductive GetError where
  | emptyNode
  | nodeNotFound
deriving DecidableEq

/-- Modelled from the spec: the generated data-access layer's
`Get_OverlayCacheNode_By_NodeId` ("get by identity" in the backing-store
interface) — the unique row keyed by the identity, `none` when absent
(`sql.ErrNoRows`). -/
def dbGetByNodeId (table : List OverlayCacheNode) (id : Nat) : Option OverlayCacheNode :=
  table.find? (fun r => r.nodeId = id)

/-- `Get`: zero identity is rejected with the empty-node error, a missing row
yields the node-not-found error, otherwise the row is converted. -/
def get (table : List OverlayCacheNode) (id : Nat) : Except GetError Node :=
  if id = 0 then .error .emptyNode
  else
    match dbGetByNodeId table id with
    | none => .error .nodeNotFound
    | some row => .ok (convertOverlayNode row)

/-- `GetAll`: positional best-effort lookup; a failing per-element `Get`
leaves a `none` hole at that position (`continue` in the loop) and the call
itself always returns without error. -/
def getAll (table : List OverlayCacheNode) (ids : List Nat) :
    List (Option Node) × Option GetError :=
  (ids.map fun id =>
    match get table id with
    | .error _ => none
    | .ok info => some info,
   none)

/-- Errors of `Update`: the InvalidArgument-class empty-node rejection, and
the Go nil-pointer dereference that the update branch performs on
`info.Reputation` when the message carries no reputation sub-group (the
branch reads `info.Reputation.Latency_90` directly instead of the
nil-defaulted local variable). -/
inductive UpdateError where
  | emptyNode
  | nilReputationFault
deriving DecidableEq

/-- Zero value of `pb.NodeStats` (`&pb.NodeStats{}`). -/
def zeroStats : NodeStats :=
  { nodeId := 0, latency90 := 0, auditSuccessRate := 0, uptimeRate := 0,
    auditCount := 0, auditSuccessCount := 0, uptimeCount := 0, uptimeSuccessCount := 0 }

/-- The defaulted address local of `Update` (`&pb.NodeAddress{}` when nil). -/
def defaultedAddress (info : Node) : NodeAddress :=
  info.address.getD { address := "", transport := 0 }

/-- The defaulted metadata local of `Update`. -/
def defaultedMetadata (info : Node) : NodeMetadata :=
  info.metadata.getD { email := "", wallet := "" }

/-- The defaulted restrictions local of `Update` (floors default to the
unknown sentinel `-1`). -/
def defaultedRestrictions (info : Node) : NodeRestrictions :=
  info.restrictions.getD { freeBandwidth := -1, freeDisk := -1 }

/-- The defaulted reputation local of `Update` (`&pb.NodeStats{}` when nil). -/
def defaultedStats (info : Node) : NodeStats :=
  info.reputation.getD zeroStats

/-- The row written by `Update`'s create branch
(`Create_OverlayCacheNode` with the defaulted sub-group locals). -/
def createRow (info : Node) : OverlayCacheNode :=
  { nodeId := info.id
    nodeType := info.nodeType
    address := (defaultedAddress info).address
    protocol := (defaultedAddress info).transport
    operatorEmail := (defaultedMetadata info).email
    operatorWallet := (defaultedMetadata info).wallet
    freeBandwidth := (defaultedRestrictions info).freeBandwidth
    freeDisk := (defaultedRestrictions info).freeDisk
    latency90 := (defaultedStats info).latency90
    auditSuccessRate := (defaultedStats info).auditSuccessRate
    auditUptimeRate := (defaultedStats info).uptimeRate
    auditCount := (defaultedStats info).auditCount
    auditSuccessCount := (defaultedStats info).auditSuccessCount
    uptimeCount := (defaultedStats info).uptimeCount
    uptimeSuccessCount := (defaultedStats info).uptimeSuccessCount }

/-- The row produced by `Update`'s update branch
(`Update_OverlayCacheNode_By_NodeId` applied to the stored row): address and
protocol are written unconditionally from the defaulted address local, every
reputation column is written unconditionally from the message's reputation
(`stats`, known non-nil on this path), while operator metadata and the
resource floors are written only when the message carries those sub-groups.
Node type is never updated. -/
def updateFieldsRow (info : Node) (stats : NodeStats) (row : OverlayCacheNode) :
    OverlayCacheNode :=
  let row :=
    { row with
      address := (defaultedAddress info).address
      protocol := (defaultedAddress info).transport
      latency90 := stats.latency90
      auditSuccessRate := stats.auditSuccessRate
      auditUptimeRate := stats.uptimeRate
      auditCount := stats.auditCount
      auditSuccessCount := stats.auditSuccessCount
      uptimeCount := stats.uptimeCount
      uptimeSuccessCount := stats.uptimeSuccessCount }
  let row :=
    match info.metadata with
    | some m => { row with operatorEmail := m.email, operatorWallet := m.wallet }
    | none => row
  let row :=
    match info.restrictions with
    | some r => { row with freeBandwidth := r.freeBandwidth, freeDisk := r.freeDisk }
    | none => row
  row

/-- `Update` (upsert): rejects a nil message or zero identity; otherwise a
read-then-branch on the existing row decides between the create and the
update statement.  The dbx update-by-identity is modelled as rewriting the
row keyed by the identity (spec §6 "update by identity"); the nil-reputation
dereference of the update branch is the explicit fault outcome. -/
def update (table : List OverlayCacheNode) (info : Option Node) :
    Except UpdateError (List OverlayCacheNode) :=
  match info with
  | none => .error .emptyNode
  | some info =>
    if info.id = 0 then .error .emptyNode
    else
      match dbGetByNodeId table info.id with
      | none => .ok (table ++ [createRow info])
      | some _ =>
        match info.reputation with
        | none => .error .nilReputationFault
        | some stats =>
          .ok (table.map fun r => if r.nodeId = info.id then updateFieldsRow info stats r else r)

/-- The internal `getNodesRequest` handed to the two selection queries. -/
structure GetNodesRequest where
  minReputation : NodeStats
  freeBandwidth : Int
  freeDisk : Int
  excluded : List Nat
  reputableNodeAmount : Int
  newNodeAmount : Int
  newNodeAuditThreshold : Int

/-- Modelled from the spec: `overlay.FilterNodesRequest` (the selection
request type lives outside these sources; spec §3 "SelectionRequest").  Its
fields are exactly what `FilterNodes` reads: `MinNodes`, `Opts.GetAmount()`,
the requested resource floors, the exclusion set, the minimum-reputation
floor, the new-node percentage, and the new-node audit threshold. -/
structure FilterNodesRequest where
  minNodes : Int
  optsAmount : Int
  freeBandwidth : Int
  freeDisk : Int
  excludedNodes : List Nat
  minReputation : NodeStats
  newNodePercentage : Rat
  newNodeAuditThreshold : Int

/-- The audit-count floor of the proven-node query: the minimum-reputation
audit count, raised to the new-node audit threshold when that is larger. -/
def reputableAuditFloor (req : GetNodesRequest) : Int :=
  if req.newNodeAuditThreshold > req.minReputation.auditCount then req.newNodeAuditThreshold
  else req.minReputation.auditCount

/-- The `WHERE` clause of `findReputableNodesQuery`: not excluded, audit
count at or above the raised floor, both ratio floors, uptime-count floor,
both resource floors, and storage node type (`2`). -/
def reputableRowPred (req : GetNodesRequest) (row : OverlayCacheNode) : Bool :=
  !(decide (row.nodeId ∈ req.excluded)) &&
  decide (reputableAuditFloor req ≤ row.auditCount) &&
  decide (req.minReputation.auditSuccessRate ≤ row.auditSuccessRate) &&
  decide (req.minReputation.uptimeCount ≤ row.uptimeCount) &&
  decide (req.minReputation.uptimeRate ≤ row.auditUptimeRate) &&
  decide (req.freeBandwidth ≤ row.freeBandwidth) &&
  decide (req.freeDisk ≤ row.freeDisk) &&
  decide (row.nodeType = 2)

/-- The `WHERE` clause of `findNewNodesQuery`: not excluded, audit count
strictly below the new-node threshold, both resource floors, storage type. -/
def newRowPred (req : GetNodesRequest) (row : OverlayCacheNode) : Bool :=
  !(decide (row.nodeId ∈ req.excluded)) &&
  decide (row.auditCount < req.newNodeAuditThreshold) &&
  decide (req.freeBandwidth ≤ row.freeBandwidth) &&
  decide (req.freeDisk ≤ row.freeDisk) &&
  decide (row.nodeType = 2)

/-- SQLite `LIMIT n` applied to the matching rows: a negative `n` imposes no
bound (SQLite treats it as "no limit"), a non-negative `n` returns at most
the first `n` rows. -/
def sqlLimit {α : Type} (n : Int) (rows : List α) : List α :=
  if n < 0 then rows else rows.take n.toNat

/-- `findReputableNodesQuery`: the rows matching the proven predicate in the
table's row order, under `LIMIT reputableNodeAmount`. -/
def findReputableNodesRows (table : List OverlayCacheNode) (req : GetNodesRequest) :
    List OverlayCacheNode :=
  sqlLimit req.reputableNodeAmount (table.filter (reputableRowPred req))

/-- `findNewNodesQuery`: rows matching the new-node predicate, under
`LIMIT newNodeAmount`. -/
def findNewNodesRows (table : List OverlayCacheNode) (req : GetNodesRequest) :
    List OverlayCacheNode :=
  sqlLimit req.newNodeAmount (table.filter (newRowPred req))

/-- `getReputableNodes`: the proven query's rows converted to node values
(`sqlRowsToNodes`). -/
def getReputableNodes (table : List OverlayCacheNode) (req : GetNodesRequest) : List Node :=
  (findReputableNodesRows table req).map convertOverlayNode

/-- `getNewNodes`: the new-node query's rows converted to node values. -/
def getNewNodes (table : List OverlayCacheNode) (req : GetNodesRequest) : List Node :=
  (findNewNodesRows table req).map convertOverlayNode

/-- The proven-node target count: the request's `MinNodes` when positive,
else `Opts.GetAmount()`. -/
def provenNodeAmount (req : FilterNodesRequest) : Int :=
  if req.minNodes ≤ 0 then req.optsAmount else req.minNodes

/-- Go's `int64(q)` conversion on the exact value `q`: truncation toward
zero (models `int64(float64(reputableNodeAmount) * req.NewNodePercentage)`). -/
def intTrunc (q : Rat) : Int :=
  if 0 ≤ q then ⌊q⌋ else -⌊-q⌋

/-- The new-node quota: the proven target times the new-node percentage,
truncated to an integer. -/
def newNodeQuota (req : FilterNodesRequest) : Int :=
  intTrunc ((provenNodeAmount req : Rat) * req.newNodePercentage)

/-- The `getNodesRequest` built for the proven-node query. -/
def toGetReputableRequest (req : FilterNodesRequest) : GetNodesRequest :=
  { minReputation := req.minReputation
    freeBandwidth := req.freeBandwidth
    freeDisk := req.freeDisk
    excluded := req.excludedNodes
    reputableNodeAmount := provenNodeAmount req
    newNodeAmount := 0
    newNodeAuditThreshold := req.newNodeAuditThreshold }

/-- The `getNodesRequest` built for the new-node query (its
`minReputation` is nil in Go and never read by that query; modelled as the
zero stats). -/
def toGetNewRequest (req : FilterNodesRequest) : GetNodesRequest :=
  { minReputation := zeroStats
    freeBandwidth := req.freeBandwidth
    freeDisk := req.freeDisk
    excluded := req.excludedNodes
    reputableNodeAmount := 0
    newNodeAmount := newNodeQuota req
    newNodeAuditThreshold := req.newNodeAuditThreshold }

/-- The error returned by `FilterNodes`: either a propagated failure of one
of the two underlying queries, or the `codes.ResourceExhausted` status built
for a proven-node shortfall, carrying the requested and the found count. -/
inductive FilterError (ε : Type) where
  | queryFailure (e : ε)
  | resourceExhausted (requested : Int) (found : Nat)
deriving DecidableEq

/-- The tail of `FilterNodes` as a function of the two query outcomes: a
failed query returns `(nil, err)` immediately; two successful queries are
concatenated (proven first), and a shortfall of proven nodes attaches the
`ResourceExhausted` error to the concatenated result. -/
def filterNodesOutcome {ε : Type} (reputableOutcome newOutcome : Except ε (List Node))
    (reputableNodeAmount : Int) : Option (List Node) × Option (FilterError ε) :=
  match reputableOutcome with
  | .error e => (none, some (.queryFailure e))
  | .ok reputableNodes =>
    match newOutcome with
    | .error e => (none, some (.queryFailure e))
    | .ok newNodes =>
      let allNodes := reputableNodes ++ newNodes
      if (reputableNodes.length : Int) < reputableNodeAmount then
        (some allNodes, some (.resourceExhausted reputableNodeAmount reputableNodes.length))
      else (some allNodes, none)

/-- `FilterNodes` over the table model: both queries are issued against the
table (in the pure table model a query itself cannot fail, hence the empty
query-error type) and their outcomes are merged by `filterNodesOutcome`. -/
def filterNodes (table : List OverlayCacheNode) (req : FilterNodesRequest) :
    Option (List Node) × Option (FilterError Empty) :=
  filterNodesOutcome
    (.ok (getReputableNodes table (toGetReputableRequest req)))
    (.ok (getNewNodes table (toGetNewRequest req)))
    (provenNodeAmount req)

/-- Modelled from the spec: the generated limited scan
`Limited_OverlayCacheNode_By_NodeId_GreaterOrEqual` — rows with identity at
or above the cursor, ordered by identity ascending, at most `limit` of them
starting `offset` rows in (spec §4.3, §6). -/
def dbLimitedByNodeIdGE (table : List OverlayCacheNode) (cursor : Nat) (limit offset : Nat) :
    List OverlayCacheNode :=
  (((table.insertionSort fun a b => a.nodeId ≤ b.nodeId).filter
      fun r => decide (cursor ≤ r.nodeId)).drop offset).take limit

/-- `Paginate`: scans from the zero identity with an offset; the limit is
clamped into `(0, lookupLimit]` (`storage.LookupLimit`, a positive
configured maximum passed here as a parameter), and `moreAvailable` is
cleared exactly when the page came back short of the effective limit.  The
conversion error path cannot arise in the model, so only the page and the
flag are returned. -/
def paginate (lookupLimit : Int) (table : List OverlayCacheNode) (offset : Nat)
    (limit : Int) : List Node × Bool :=
  let limit := if limit ≤ 0 ∨ lookupLimit < limit then lookupLimit else limit
  let dbxInfos := dbLimitedByNodeIdGE table 0 limit.toNat offset
  let more := !decide ((dbxInfos.length : Int) < limit)
  (dbxInfos.map convertOverlayNode, more)

/-! ## Helper lemmas -/

deriving instance DecidableEq for Except

attribute [ext] Node

/-- The created row is keyed by the message's identity. -/
theorem createRow_nodeId (info : Node) : (createRow info).nodeId = info.id := rfl

/-- Field-wise characterization of `convertOverlayNode`. -/
theorem convertOverlayNode_eq (r : OverlayCacheNode) :
    convertOverlayNode r =
      { id := r.nodeId
        nodeType := r.nodeType
        address :=
          if r.address = "" then none
          else some { address := r.address, transport := r.protocol }
        metadata :=
          if r.operatorEmail = "" ∧ r.operatorWallet = "" then none
          else some { email := r.operatorEmail, wallet := r.operatorWallet }
        restrictions :=
          if r.freeBandwidth < 0 ∧ r.freeDisk < 0 then none
          else some { freeBandwidth := r.freeBandwidth, freeDisk := r.freeDisk }
        reputation :=
          if r.latency90 < 0 then none
          else some
            { nodeId := r.nodeId
              latency90 := r.latency90
              auditSuccessRate := r.auditSuccessRate
              uptimeRate := r.auditUptimeRate
              auditCount := r.auditCount
              auditSuccessCount := r.auditSuccessCount
              uptimeCount := r.uptimeCount
              uptimeSuccessCount := r.uptimeSuccessCount } } := by
  unfold convertOverlayNode
  split_ifs <;> rfl

/-- Conversion preserves the node identity. -/
theorem convertOverlayNode_id (r : OverlayCacheNode) :
    (convertOverlayNode r).id = r.nodeId := by
  rw [convertOverlayNode_eq]

/-! ## Claim theorems -/

/-- C7: `Get` on the zero identity fails with the InvalidArgument-class
empty-node error; `Get` on a non-zero identity with no stored row fails with
the NotFound-class node-not-found error; in both cases no record is
returned (the outcome is an `Except.error`). -/
theorem get_error_classes (table : List OverlayCacheNode) (id : Nat) :
    get table 0 = .error .emptyNode ∧
    (id ≠ 0 → dbGetByNodeId table id = none → get table id = .error .nodeNotFound) := by
  refine ⟨rfl, fun hid hmiss => ?_⟩
  unfold get
  rw [if_neg hid, hmiss]

/-- C7 witness: `Get` at identity `7` on the empty store. -/
theorem get_error_classes_witness :
    get ([] : List OverlayCacheNode) 0 = .error .emptyNode ∧
    (7 ≠ 0 → dbGetByNodeId ([] : List OverlayCacheNode) 7 = none →
      get ([] : List OverlayCacheNode) 7 = .error .nodeNotFound) ∧
    get ([] : List OverlayCacheNode) 7 = .error .nodeNotFound :=
  ⟨(get_error_classes [] 7).1, (get_error_classes [] 7).2,
    (get_error_classes [] 7).2 (by decide) (by decide)⟩

/-- A fully-populated storage row used by the concrete scenarios. -/
def demoRow (id : Nat) : OverlayCacheNode :=
  { nodeId := id, nodeType := 2, address := "addr", protocol := 1,
    operatorEmail := "email", operatorWallet := "wallet",
    freeBandwidth := 10, freeDisk := 10, latency90 := 1,
    auditSuccessRate := 1, auditUptimeRate := 1,
    auditCount := 5, auditSuccessCount := 5, uptimeCount := 5, uptimeSuccessCount := 5 }

/-- C8: `GetAll` returns no error and a result of exactly the input length,
whose `i`-th slot holds the record when the per-element `Get` succeeded and
a hole (`none`) when it failed; concretely, looking up `[1, 2, 3]` when only
`1` and `3` are stored yields real records around a hole at position 2. -/
theorem getAll_positional (table : List OverlayCacheNode) (ids : List Nat) :
    (getAll table ids).2 = none ∧
    (getAll table ids).1.length = ids.length ∧
    (∀ i, i < ids.length →
      (getAll table ids).1.getD i none =
        match get table (ids.getD i 0) with
        | .error _ => none
        | .ok v => some v) ∧
    getAll [demoRow 1, demoRow 3] [1, 2, 3] =
      ([some (convertOverlayNode (demoRow 1)), none, some (convertOverlayNode (demoRow 3))],
       none) := by
  refine ⟨rfl, by simp [getAll], fun i hi => ?_, by decide⟩
  simp [getAll, List.getD_eq_getElem?_getD, List.getElem?_eq_getElem hi,
    List.getD_eq_getElem ids 0 hi]

/-- C8 witness: the positional characterization applied at the hole position
of the concrete scenario. -/
theorem getAll_positional_witness :
    1 < ([1, 2, 3] : List Nat).length ∧
    (getAll [demoRow 1, demoRow 3] [1, 2, 3]).1.getD 1 none =
      match get [demoRow 1, demoRow 3] (([1, 2, 3] : List Nat).getD 1 0) with
      | .error _ => none
      | .ok v => some v :=
  ⟨by decide, (getAll_positional [demoRow 1, demoRow 3] [1, 2, 3]).2.2.1 1 (by decide)⟩

/-- A population of five stored records, identities 1 through 5. -/
def pagTable : List OverlayCacheNode :=
  [demoRow 1, demoRow 2, demoRow 3, demoRow 4, demoRow 5]

/-- C9: on a store of 5 records with limit 2, `Paginate` at offsets 0, 2, 4
returns pages of 2, 2 and 1 records with `moreAvailable` true, true, false;
and in general, for an effective (positive, unclamped) limit,
`moreAvailable` is true exactly when the page holds exactly `limit`
records. -/
theorem paginate_pages :
    ((paginate 1000 pagTable 0 2).1.length = 2 ∧ (paginate 1000 pagTable 0 2).2 = true) ∧
    ((paginate 1000 pagTable 2 2).1.length = 2 ∧ (paginate 1000 pagTable 2 2).2 = true) ∧
    ((paginate 1000 pagTable 4 2).1.length = 1 ∧ (paginate 1000 pagTable 4 2).2 = false) ∧
    ∀ (lookupLimit : Int) (table : List OverlayCacheNode) (offset : Nat) (limit : Int),
      0 < limit → limit ≤ lookupLimit →
      ((paginate lookupLimit table offset limit).2 = true ↔
        ((paginate lookupLimit table offset limit).1.length : Int) = limit) := by
  refine ⟨by decide, by decide, by decide, fun lookupLimit table offset limit h1 h2 => ?_⟩
  have hcond : ¬(limit ≤ 0 ∨ lookupLimit < limit) := by omega
  have hlen : (dbLimitedByNodeIdGE table 0 limit.toNat offset).length ≤ limit.toNat := by
    unfold dbLimitedByNodeIdGE
    simp [List.length_take]
  simp only [paginate, if_neg hcond, List.length_map, Bool.not_eq_true',
    decide_eq_false_iff_not]
  omega

/-- C9 witness: the general `moreAvailable` characterization applied to the
first page of the concrete scenario. -/
theorem paginate_pages_witness :
    (0 : Int) < 2 ∧ (2 : Int) ≤ 1000 ∧
    ((paginate 1000 pagTable 0 2).2 = true ↔
      ((paginate 1000 pagTable 0 2).1.length : Int) = 2) :=
  ⟨by decide, by decide, paginate_pages.2.2.2 1000 pagTable 0 2 (by decide) (by decide)⟩

/-- The reputation stats a freshly created row reads back as: the node's own
identity stamped over otherwise zeroed fields. -/
def freshStats (id : Nat) : NodeStats :=
  { zeroStats with nodeId := id }

/-- A node-info value whose present sub-groups avoid the absence sentinels
of `convertOverlayNode` (non-empty address; not both operator fields empty;
not both floors negative; reputation with non-negative latency carrying the
node's own identity).  These are exactly the inputs whose present sub-groups
survive a store/read cycle unchanged. -/
def NormalForm (info : Node) : Bool :=
  (match info.address with
   | some a => !(a.address == "")
   | none => true) &&
  (match info.metadata with
   | some m => !(m.email == "" && m.wallet == "")
   | none => true) &&
  (match info.restrictions with
   | some r => !(decide (r.freeBandwidth < 0) && decide (r.freeDisk < 0))
   | none => true) &&
  (match info.reputation with
   | some s => decide (0 ≤ s.latency90) && (s.nodeId == info.id)
   | none => true)

/-- Reading back a freshly created row reproduces the input except that an
absent reputation sub-group resurfaces as the present zero stats (creation
stores latency 0, which does not meet the negative-latency absence
sentinel). -/
theorem convert_createRow (info : Node) (hnf : NormalForm info = true) :
    convertOverlayNode (createRow info) =
      { info with reputation := some (info.reputation.getD (freshStats info.id)) } := by
  simp only [NormalForm, Bool.and_eq_true] at hnf
  obtain ⟨⟨⟨ha, hm⟩, hr⟩, hp⟩ := hnf
  rw [convertOverlayNode_eq]
  apply Node.ext
  · rfl
  · rfl
  · cases haddr : info.address with
    | none => simp [createRow, defaultedAddress, haddr]
    | some a =>
      rw [haddr] at ha
      simp only [Bool.not_eq_true', beq_eq_false_iff_ne, ne_eq] at ha
      simp [createRow, defaultedAddress, haddr, ha]
  · cases hmd : info.metadata with
    | none => simp [createRow, defaultedMetadata, hmd]
    | some m =>
      rw [hmd] at hm
      simp only [Bool.not_eq_true', Bool.and_eq_false_iff, beq_eq_false_iff_ne, ne_eq] at hm
      simp [createRow, defaultedMetadata, hmd]
      intro he hw
      rcases hm with hm | hm <;> simp_all
  · cases hrs : info.restrictions with
    | none => simp [createRow, defaultedRestrictions, hrs]
    | some r =>
      rw [hrs] at hr
      simp only [Bool.not_eq_true', Bool.and_eq_false_iff, decide_eq_false_iff_not,
        not_lt] at hr
      simp [createRow, defaultedRestrictions, hrs]
      omega
  · cases hrep : info.reputation with
    | none => simp [createRow, defaultedStats, zeroStats, freshStats, hrep]
    | some s =>
      obtain ⟨snid, slat, sasr, sur, sac, sasc, suc, susc⟩ := s
      rw [hrep] at hp
      simp only [Bool.and_eq_true, decide_eq_true_eq, beq_iff_eq] at hp
      have hneg : ¬ ((createRow info).latency90 < 0) := by
        simp [createRow, defaultedStats, hrep]
        omega
      simp [createRow, defaultedStats, hrep, hneg, hp.2]
      exact hp.1

/-- A valid node-info value (non-zero identity) whose optional sub-groups
are all absent. -/
def allAbsentInfo : Node :=
  { id := 1, nodeType := 2, address := none, metadata := none,
    restrictions := none, reputation := none }

/-- C1 counterexample: upserting `allAbsentInfo` into a fresh store and
reading it back yields a record whose reputation sub-group is *present* with
zeroed fields, not absent — so the record is not equal to the input.  The
other three sub-groups do come back absent. -/
theorem upsert_get_all_absent_counterexample :
    update [] (some allAbsentInfo) = .ok [createRow allAbsentInfo] ∧
    get [createRow allAbsentInfo] allAbsentInfo.id =
      .ok (convertOverlayNode (createRow allAbsentInfo)) ∧
    (convertOverlayNode (createRow allAbsentInfo)).address = none ∧
    (convertOverlayNode (createRow allAbsentInfo)).metadata = none ∧
    (convertOverlayNode (createRow allAbsentInfo)).restrictions = none ∧
    (convertOverlayNode (createRow allAbsentInfo)).reputation = some (freshStats 1) ∧
    convertOverlayNode (createRow allAbsentInfo) ≠ allAbsentInfo := by
  decide

/-- C1 (amended): for every valid node-info value in `NormalForm`, `Update`
on a fresh store followed by `Get` on the same identity reproduces the input
exactly, except that an absent reputation sub-group comes back as the
present zero-valued stats stamped with the node's identity; in particular
absent address, metadata and restrictions sub-groups come back absent. -/
theorem upsert_get_roundtrip (info : Node) (hid : info.id ≠ 0)
    (hnf : NormalForm info = true) :
    update [] (some info) = .ok [createRow info] ∧
    get [createRow info] info.id =
      .ok { info with reputation := some (info.reputation.getD (freshStats info.id)) } := by
  constructor
  · simp [update, dbGetByNodeId, hid]
  · rw [← convert_createRow info hnf]
    simp [get, dbGetByNodeId, hid, List.find?, createRow_nodeId]

/-- A fully-populated, sentinel-free node-info value. -/
def fullInfo : Node :=
  { id := 3, nodeType := 2, address := some { address := "a", transport := 1 },
    metadata := some { email := "e", wallet := "w" },
    restrictions := some { freeBandwidth := 4, freeDisk := 5 },
    reputation := some
      { nodeId := 3, latency90 := 9, auditSuccessRate := 1, uptimeRate := 1,
        auditCount := 4, auditSuccessCount := 3, uptimeCount := 6, uptimeSuccessCount := 5 } }

/-- C1 witness: the amended round trip at a concrete fully-populated input
(whose reputation is present, so the record is reproduced exactly). -/
theorem upsert_get_roundtrip_witness :
    fullInfo.id ≠ 0 ∧ NormalForm fullInfo = true ∧
    (update [] (some fullInfo) = .ok [createRow fullInfo] ∧
      get [createRow fullInfo] fullInfo.id =
        .ok { fullInfo with
              reputation := some (fullInfo.reputation.getD (freshStats fullInfo.id)) }) :=
  ⟨by decide, by decide, upsert_get_roundtrip fullInfo (by decide) (by decide)⟩

/-- An update message for the stored node 1 in which only the resource-floor
sub-group is populated. -/
def restrictionsOnlyInfo : Node :=
  { id := 1, nodeType := 2, address := none, metadata := none,
    restrictions := some { freeBandwidth := 5, freeDisk := 6 }, reputation := none }

/-- The reputation values already stored for `demoRow 1`. -/
def demoStats : NodeStats :=
  { nodeId := 1, latency90 := 1, auditSuccessRate := 1, uptimeRate := 1,
    auditCount := 5, auditSuccessCount := 5, uptimeCount := 5, uptimeSuccessCount := 5 }

/-- C2: evaluating `Update` at the claim's scenario.  A message carrying only
the resource floors faults on the update path (the Go code dereferences the
nil `info.Reputation` instead of the nil-defaulted local), so the stored
record is not updated at all; and even a message that additionally repeats
the stored reputation (dodging the fault) has its absent address sub-group
written as the defaulted empty address, clobbering the stored
address/transport instead of leaving them untouched.  Metadata and the
resource floors do behave as claimed. -/
theorem update_restrictions_only_divergence :
    update [demoRow 1] (some restrictionsOnlyInfo) = .error .nilReputationFault ∧
    update [demoRow 1] (some { restrictionsOnlyInfo with reputation := some demoStats }) =
      .ok [updateFieldsRow { restrictionsOnlyInfo with reputation := some demoStats }
            demoStats (demoRow 1)] ∧
    (updateFieldsRow { restrictionsOnlyInfo with reputation := some demoStats }
        demoStats (demoRow 1)).address = "" ∧
    (updateFieldsRow { restrictionsOnlyInfo with reputation := some demoStats }
        demoStats (demoRow 1)).protocol = 0 ∧
    (demoRow 1).address = "addr" ∧ (demoRow 1).protocol = 1 ∧
    (updateFieldsRow { restrictionsOnlyInfo with reputation := some demoStats }
        demoStats (demoRow 1)).freeBandwidth = 5 ∧
    (updateFieldsRow { restrictionsOnlyInfo with reputation := some demoStats }
        demoStats (demoRow 1)).freeDisk = 6 ∧
    (updateFieldsRow { restrictionsOnlyInfo with reputation := some demoStats }
        demoStats (demoRow 1)).operatorEmail = "email" ∧
    (updateFieldsRow { restrictionsOnlyInfo with reputation := some demoStats }
        demoStats (demoRow 1)).operatorWallet = "wallet" := by
  decide

/-- The audit-count floor of the proven query is `max` of the two floors. -/
theorem reputableAuditFloor_eq_max (req : GetNodesRequest) :
    reputableAuditFloor req = max req.minReputation.auditCount req.newNodeAuditThreshold := by
  unfold reputableAuditFloor
  split <;> omega

/-- The proven query's audit floor is at least the new-node threshold, so the
two selection queries match disjoint row populations. -/
theorem reputableAuditFloor_ge (req : GetNodesRequest) :
    req.newNodeAuditThreshold ≤ reputableAuditFloor req := by
  unfold reputableAuditFloor
  split <;> omega

/-- Identities of converted rows are the rows' identities. -/
theorem map_id_map_convert (rows : List OverlayCacheNode) :
    (rows.map convertOverlayNode).map Node.id = rows.map OverlayCacheNode.nodeId := by
  induction rows with
  | nil => rfl
  | cons r rs ih => simp [convertOverlayNode_id, ih]

/-- Either way the `LIMIT` branch goes, the page is a sublist of the
matching rows. -/
theorem sqlLimit_sublist {α : Type} (n : Int) (rows : List α) :
    List.Sublist (sqlLimit n rows) rows := by
  unfold sqlLimit
  split
  · exact List.Sublist.refl _
  · exact List.take_sublist _ _

/-- Rows returned by the proven query are table rows matching its clause. -/
theorem mem_findReputableNodesRows {table : List OverlayCacheNode} {req : GetNodesRequest}
    {r : OverlayCacheNode} (h : r ∈ findReputableNodesRows table req) :
    r ∈ table ∧ reputableRowPred req r = true :=
  List.mem_filter.mp ((sqlLimit_sublist _ _).subset h)

/-- Rows returned by the new-node query are table rows matching its clause. -/
theorem mem_findNewNodesRows {table : List OverlayCacheNode} {req : GetNodesRequest}
    {r : OverlayCacheNode} (h : r ∈ findNewNodesRows table req) :
    r ∈ table ∧ newRowPred req r = true :=
  List.mem_filter.mp ((sqlLimit_sublist _ _).subset h)

/-- C3: whenever strictly fewer rows satisfy the proven predicate than the
proven target count, `FilterNodes` still returns the concatenation of the
proven nodes found and the eligible new nodes, together with the
`ResourceExhausted` error carrying the requested and the found count — the
partial result accompanies the error instead of being discarded. -/
theorem filterNodes_shortfall (table : List OverlayCacheNode) (req : FilterNodesRequest)
    (h : ((table.filter (reputableRowPred (toGetReputableRequest req))).length : Int) <
      provenNodeAmount req) :
    filterNodes table req =
      (some (getReputableNodes table (toGetReputableRequest req) ++
             getNewNodes table (toGetNewRequest req)),
       some (.resourceExhausted (provenNodeAmount req)
         (getReputableNodes table (toGetReputableRequest req)).length)) := by
  have hamt : (toGetReputableRequest req).reputableNodeAmount = provenNodeAmount req := rfl
  have hlen : (getReputableNodes table (toGetReputableRequest req)).length =
      (table.filter (reputableRowPred (toGetReputableRequest req))).length := by
    simp only [getReputableNodes, findReputableNodesRows, sqlLimit, hamt, List.length_map]
    rw [if_neg (by omega)]
    simp only [List.length_take]
    omega
  simp only [filterNodes, filterNodesOutcome]
  rw [if_pos (by rw [hlen]; exact h)]

/-- A request for three proven nodes under permissive floors. -/
def shortReq : FilterNodesRequest :=
  { minNodes := 3, optsAmount := 0, freeBandwidth := 0, freeDisk := 0,
    excludedNodes := [], minReputation := zeroStats, newNodePercentage := 0,
    newNodeAuditThreshold := 0 }

/-- C3 witness: one stored qualifying node against a request for three. -/
theorem filterNodes_shortfall_witness :
    ((([demoRow 1]).filter (reputableRowPred (toGetReputableRequest shortReq))).length : Int) <
      provenNodeAmount shortReq ∧
    filterNodes [demoRow 1] shortReq =
      (some (getReputableNodes [demoRow 1] (toGetReputableRequest shortReq) ++
             getNewNodes [demoRow 1] (toGetNewRequest shortReq)),
       some (.resourceExhausted (provenNodeAmount shortReq)
         (getReputableNodes [demoRow 1] (toGetReputableRequest shortReq)).length)) :=
  ⟨by decide, filterNodes_shortfall [demoRow 1] shortReq (by decide)⟩

/-- The proven query's result rows form a sublist of the table. -/
theorem findReputableNodesRows_sublist (table : List OverlayCacheNode) (req : GetNodesRequest) :
    List.Sublist (findReputableNodesRows table req) table :=
  (sqlLimit_sublist _ _).trans (List.filter_sublist _)

/-- The new-node query's result rows form a sublist of the table. -/
theorem findNewNodesRows_sublist (table : List OverlayCacheNode) (req : GetNodesRequest) :
    List.Sublist (findNewNodesRows table req) table :=
  (sqlLimit_sublist _ _).trans (List.filter_sublist _)

/-- C4 (amended): whatever node list `FilterNodes` returns (it is the proven
tier followed by the new tier, also in the shortfall case), it contains no
excluded identity and no duplicate identity (over a store with one row per
identity); and whenever `provenTarget * newNodePercentage` is non-negative,
the number of new-tier nodes never exceeds
`⌊provenTarget * newNodePercentage⌋` (there Go's truncation toward zero
coincides with the floor; for a negative product the claimed bound is
negative and fails — the quota truncates to 0, or below -1 even becomes an
unbounded SQLite `LIMIT`). -/
theorem filterNodes_result_invariants (table : List OverlayCacheNode)
    (req : FilterNodesRequest)
    (hnodup : (table.map OverlayCacheNode.nodeId).Nodup) :
    (filterNodes table req).1 =
      some (getReputableNodes table (toGetReputableRequest req) ++
            getNewNodes table (toGetNewRequest req)) ∧
    (∀ n ∈ getReputableNodes table (toGetReputableRequest req) ++
           getNewNodes table (toGetNewRequest req), n.id ∉ req.excludedNodes) ∧
    ((getReputableNodes table (toGetReputableRequest req) ++
      getNewNodes table (toGetNewRequest req)).map Node.id).Nodup ∧
    (0 ≤ (provenNodeAmount req : Rat) * req.newNodePercentage →
      ((getNewNodes table (toGetNewRequest req)).length : Int) ≤
        ⌊(provenNodeAmount req : Rat) * req.newNodePercentage⌋) := by
  refine ⟨?_, ?_, ?_, ?_⟩
  · simp only [filterNodes, filterNodesOutcome]
    split <;> rfl
  · intro n hn
    rcases List.mem_append.mp hn with hmem | hmem
    · obtain ⟨r, hr, rfl⟩ := List.mem_map.mp hmem
      obtain ⟨hT, hP⟩ := mem_findReputableNodesRows hr
      simp only [reputableRowPred, Bool.and_eq_true, Bool.not_eq_true',
        decide_eq_false_iff_not, decide_eq_true_eq] at hP
      rw [convertOverlayNode_id]
      exact hP.1.1.1.1.1.1.1
    · obtain ⟨r, hr, rfl⟩ := List.mem_map.mp hmem
      obtain ⟨hT, hP⟩ := mem_findNewNodesRows hr
      simp only [newRowPred, Bool.and_eq_true, Bool.not_eq_true',
        decide_eq_false_iff_not, decide_eq_true_eq] at hP
      rw [convertOverlayNode_id]
      exact hP.1.1.1.1
  · rw [List.map_append]
    simp only [getReputableNodes, getNewNodes, map_id_map_convert]
    refine List.Nodup.append ?_ ?_ ?_
    · exact List.Nodup.sublist ((findReputableNodesRows_sublist table _).map _) hnodup
    · exact List.Nodup.sublist ((findNewNodesRows_sublist table _).map _) hnodup
    · intro x hx1 hx2
      obtain ⟨r1, hr1, hx1e⟩ := List.mem_map.mp hx1
      obtain ⟨r2, hr2, hx2e⟩ := List.mem_map.mp hx2
      obtain ⟨h1T, h1P⟩ := mem_findReputableNodesRows hr1
      obtain ⟨h2T, h2P⟩ := mem_findNewNodesRows hr2
      have heq : r1 = r2 :=
        List.inj_on_of_nodup_map hnodup h1T h2T (by rw [hx1e, hx2e])
      subst heq
      simp only [reputableRowPred, Bool.and_eq_true, Bool.not_eq_true',
        decide_eq_false_iff_not, decide_eq_true_eq] at h1P
      simp only [newRowPred, Bool.and_eq_true, Bool.not_eq_true',
        decide_eq_false_iff_not, decide_eq_true_eq] at h2P
      obtain ⟨⟨⟨⟨⟨⟨⟨_, hAudit⟩, _⟩, _⟩, _⟩, _⟩, _⟩, _⟩ := h1P
      obtain ⟨⟨⟨⟨_, hAudit2⟩, _⟩, _⟩, _⟩ := h2P
      have hfl := reputableAuditFloor_ge (toGetReputableRequest req)
      have hth : (toGetReputableRequest req).newNodeAuditThreshold =
          req.newNodeAuditThreshold := rfl
      have hth2 : (toGetNewRequest req).newNodeAuditThreshold =
          req.newNodeAuditThreshold := rfl
      rw [hth] at hfl
      rw [hth2] at hAudit2
      omega
  · intro hx
    have hq : (toGetNewRequest req).newNodeAmount = newNodeQuota req := rfl
    have hq2 : newNodeQuota req =
        intTrunc ((provenNodeAmount req : Rat) * req.newNodePercentage) := rfl
    have htr : intTrunc ((provenNodeAmount req : Rat) * req.newNodePercentage) =
        ⌊(provenNodeAmount req : Rat) * req.newNodePercentage⌋ := by
      unfold intTrunc
      rw [if_pos hx]
    have hfl : 0 ≤ ⌊(provenNodeAmount req : Rat) * req.newNodePercentage⌋ :=
      Int.le_floor.mpr (by exact_mod_cast hx)
    have hlen1 : (getNewNodes table (toGetNewRequest req)).length ≤
        ⌊(provenNodeAmount req : Rat) * req.newNodePercentage⌋.toNat := by
      simp only [getNewNodes, findNewNodesRows, sqlLimit, hq, hq2, htr, List.length_map]
      rw [if_neg (by omega)]
      simp only [List.length_take]
      omega
    omega

/-- A selection request with a negative new-node percentage. -/
def quotaCexReq : FilterNodesRequest :=
  { minNodes := 1, optsAmount := 0, freeBandwidth := 0, freeDisk := 0,
    excludedNodes := [], minReputation := zeroStats,
    newNodePercentage := -(1 / 2 : Rat), newNodeAuditThreshold := 0 }

/-- C4 counterexample: on the empty store with proven target 1 and new-node
percentage -1/2, the returned list (empty) trivially avoids exclusions and
duplicates, but the new-tier count 0 exceeds
`⌊provenTarget * newNodePercentage⌋ = -1`, so the claimed conjunction fails
as stated (Go truncates the product toward zero; it does not floor it). -/
theorem filterNodes_quota_counterexample :
    ¬ ((∀ n ∈ getReputableNodes [] (toGetReputableRequest quotaCexReq) ++
              getNewNodes [] (toGetNewRequest quotaCexReq),
          n.id ∉ quotaCexReq.excludedNodes) ∧
       ((getReputableNodes [] (toGetReputableRequest quotaCexReq) ++
         getNewNodes [] (toGetNewRequest quotaCexReq)).map Node.id).Nodup ∧
       ((getNewNodes [] (toGetNewRequest quotaCexReq)).length : Int) ≤
         ⌊(provenNodeAmount quotaCexReq : Rat) * quotaCexReq.newNodePercentage⌋) := by
  intro h
  have h3 := h.2.2
  have hprod : (provenNodeAmount quotaCexReq : Rat) * quotaCexReq.newNodePercentage =
      -(1 / 2 : Rat) := by
    norm_num [provenNodeAmount, quotaCexReq]
  have hfloor : ⌊(-(1 / 2) : Rat)⌋ = -1 := by
    rw [Int.floor_eq_iff]
    norm_num
  rw [hprod, hfloor] at h3
  have hlen : (getNewNodes ([] : List OverlayCacheNode) (toGetNewRequest quotaCexReq)).length
      = 0 := by simp [getNewNodes, findNewNodesRows, sqlLimit]
  omega

/-- C4 witness: the amended invariants at the one-node store and the
three-proven-node request, with both hypotheses (one-row-per-identity store,
non-negative quota product) discharged concretely. -/
theorem filterNodes_result_invariants_witness :
    (([demoRow 1] : List OverlayCacheNode).map OverlayCacheNode.nodeId).Nodup ∧
    0 ≤ (provenNodeAmount shortReq : Rat) * shortReq.newNodePercentage ∧
    ((filterNodes [demoRow 1] shortReq).1 =
      some (getReputableNodes [demoRow 1] (toGetReputableRequest shortReq) ++
            getNewNodes [demoRow 1] (toGetNewRequest shortReq)) ∧
     (∀ n ∈ getReputableNodes [demoRow 1] (toGetReputableRequest shortReq) ++
            getNewNodes [demoRow 1] (toGetNewRequest shortReq),
        n.id ∉ shortReq.excludedNodes) ∧
     ((getReputableNodes [demoRow 1] (toGetReputableRequest shortReq) ++
       getNewNodes [demoRow 1] (toGetNewRequest shortReq)).map Node.id).Nodup) ∧
    ((getNewNodes [demoRow 1] (toGetNewRequest shortReq)).length : Int) ≤
      ⌊(provenNodeAmount shortReq : Rat) * shortReq.newNodePercentage⌋ := by
  have h := filterNodes_result_invariants [demoRow 1] shortReq (by decide)
  have hprod : 0 ≤ (provenNodeAmount shortReq : Rat) * shortReq.newNodePercentage := by
    norm_num [provenNodeAmount, shortReq]
  exact ⟨by decide, hprod, ⟨h.1, h.2.1, h.2.2.1⟩, h.2.2.2 hprod⟩

/-- C5 (amended): every node in the proven tier comes from a table row
matching the full proven clause — storage node type, audit count at or above
`max(minReputation.auditCount, newNodeAuditThreshold)`, both ratio floors,
the uptime-count floor, both resource floors, and an identity outside the
exclusion set — and, whenever the proven target count is non-negative, the
tier holds at most `provenTarget` nodes (for a negative target SQLite's
`LIMIT` is unbounded, so no cap holds there). -/
theorem reputable_tier_sound (table : List OverlayCacheNode) (req : FilterNodesRequest) :
    (∀ n ∈ getReputableNodes table (toGetReputableRequest req),
      ∃ row, row ∈ table ∧
        row.nodeType = 2 ∧
        max req.minReputation.auditCount req.newNodeAuditThreshold ≤ row.auditCount ∧
        req.minReputation.auditSuccessRate ≤ row.auditSuccessRate ∧
        req.minReputation.uptimeCount ≤ row.uptimeCount ∧
        req.minReputation.uptimeRate ≤ row.auditUptimeRate ∧
        req.freeBandwidth ≤ row.freeBandwidth ∧
        req.freeDisk ≤ row.freeDisk ∧
        row.nodeId ∉ req.excludedNodes ∧
        n = convertOverlayNode row) ∧
    (0 ≤ provenNodeAmount req →
      ((getReputableNodes table (toGetReputableRequest req)).length : Int) ≤
        provenNodeAmount req) := by
  constructor
  · intro n hn
    obtain ⟨r, hr, rfl⟩ := List.mem_map.mp hn
    obtain ⟨hT, hP⟩ := mem_findReputableNodesRows hr
    simp only [reputableRowPred, Bool.and_eq_true, Bool.not_eq_true',
      decide_eq_false_iff_not, decide_eq_true_eq] at hP
    obtain ⟨⟨⟨⟨⟨⟨⟨hEx, hAudit⟩, hASR⟩, hUC⟩, hUR⟩, hFB⟩, hFD⟩, hTy⟩ := hP
    rw [reputableAuditFloor_eq_max] at hAudit
    exact ⟨r, hT, hTy, hAudit, hASR, hUC, hUR, hFB, hFD, hEx, rfl⟩
  · intro h0
    have hamt : (toGetReputableRequest req).reputableNodeAmount = provenNodeAmount req := rfl
    have hle : (getReputableNodes table (toGetReputableRequest req)).length ≤
        (provenNodeAmount req).toNat := by
      simp only [getReputableNodes, findReputableNodesRows, sqlLimit, hamt,
        List.length_map]
      rw [if_neg (by omega)]
      simp only [List.length_take]
      omega
    omega

/-- A selection request whose proven target degenerates to -1 (both
`MinNodes` and the fallback amount are -1). -/
def capCexReq : FilterNodesRequest :=
  { minNodes := -1, optsAmount := -1, freeBandwidth := 0, freeDisk := 0,
    excludedNodes := [], minReputation := zeroStats, newNodePercentage := 0,
    newNodeAuditThreshold := 0 }

/-- C5 counterexample: with proven target -1 on the empty store, the proven
tier (empty) vacuously satisfies the predicate part but its size 0 is not at
most the proven target count -1, so the claimed conjunction fails as
stated. -/
theorem reputable_tier_cap_counterexample :
    ¬ ((∀ n ∈ getReputableNodes [] (toGetReputableRequest capCexReq),
        ∃ row, row ∈ ([] : List OverlayCacheNode) ∧
          row.nodeType = 2 ∧
          max capCexReq.minReputation.auditCount capCexReq.newNodeAuditThreshold ≤
            row.auditCount ∧
          capCexReq.minReputation.auditSuccessRate ≤ row.auditSuccessRate ∧
          capCexReq.minReputation.uptimeCount ≤ row.uptimeCount ∧
          capCexReq.minReputation.uptimeRate ≤ row.auditUptimeRate ∧
          capCexReq.freeBandwidth ≤ row.freeBandwidth ∧
          capCexReq.freeDisk ≤ row.freeDisk ∧
          row.nodeId ∉ capCexReq.excludedNodes ∧
          n = convertOverlayNode row) ∧
       ((getReputableNodes [] (toGetReputableRequest capCexReq)).length : Int) ≤
         provenNodeAmount capCexReq) := by
  intro h
  have h2 := h.2
  have hlen : (getReputableNodes ([] : List OverlayCacheNode)
      (toGetReputableRequest capCexReq)).length = 0 := by
    simp [getReputableNodes, findReputableNodesRows, sqlLimit]
  have hamt : provenNodeAmount capCexReq = -1 := by decide
  omega

/-- C5 witness: the amended soundness at the one-node store, instantiated at
the node of the proven tier. -/
theorem reputable_tier_sound_witness :
    convertOverlayNode (demoRow 1) ∈
      getReputableNodes [demoRow 1] (toGetReputableRequest shortReq) ∧
    (∃ row, row ∈ ([demoRow 1] : List OverlayCacheNode) ∧
      row.nodeType = 2 ∧
      max shortReq.minReputation.auditCount shortReq.newNodeAuditThreshold ≤
        row.auditCount ∧
      shortReq.minReputation.auditSuccessRate ≤ row.auditSuccessRate ∧
      shortReq.minReputation.uptimeCount ≤ row.uptimeCount ∧
      shortReq.minReputation.uptimeRate ≤ row.auditUptimeRate ∧
      shortReq.freeBandwidth ≤ row.freeBandwidth ∧
      shortReq.freeDisk ≤ row.freeDisk ∧
      row.nodeId ∉ shortReq.excludedNodes ∧
      convertOverlayNode (demoRow 1) = convertOverlayNode row) ∧
    0 ≤ provenNodeAmount shortReq ∧
    ((getReputableNodes [demoRow 1] (toGetReputableRequest shortReq)).length : Int) ≤
      provenNodeAmount shortReq :=
  ⟨by decide, (reputable_tier_sound [demoRow 1] shortReq).1 _ (by decide),
    by decide, (reputable_tier_sound [demoRow 1] shortReq).2 (by decide)⟩

/-- A selection request with an empty exclusion set. -/
def selectReq : FilterNodesRequest :=
  { minNodes := 1, optsAmount := 0, freeBandwidth := 0, freeDisk := 0,
    excludedNodes := [], minReputation := zeroStats, newNodePercentage := 0,
    newNodeAuditThreshold := 0 }

/-- C6: with an empty exclusion set, both selection predicates degenerate to
exactly their non-exclusion conjuncts (the `NOT IN` clause excludes nothing
and never becomes unsatisfiable), and a qualifying stored node is indeed
returned by `FilterNodes` under an empty exclusion set. -/
theorem empty_exclusion_ok :
    (∀ (req : GetNodesRequest) (row : OverlayCacheNode), req.excluded = [] →
      (reputableRowPred req row = true ↔
        (reputableAuditFloor req ≤ row.auditCount ∧
         req.minReputation.auditSuccessRate ≤ row.auditSuccessRate ∧
         req.minReputation.uptimeCount ≤ row.uptimeCount ∧
         req.minReputation.uptimeRate ≤ row.auditUptimeRate ∧
         req.freeBandwidth ≤ row.freeBandwidth ∧
         req.freeDisk ≤ row.freeDisk ∧
         row.nodeType = 2))) ∧
    (∀ (req : GetNodesRequest) (row : OverlayCacheNode), req.excluded = [] →
      (newRowPred req row = true ↔
        (row.auditCount < req.newNodeAuditThreshold ∧
         req.freeBandwidth ≤ row.freeBandwidth ∧
         req.freeDisk ≤ row.freeDisk ∧
         row.nodeType = 2))) ∧
    selectReq.excludedNodes = [] ∧
    filterNodes [demoRow 1] selectReq = (some [convertOverlayNode (demoRow 1)], none) := by
  refine ⟨?_, ?_, rfl, ?_⟩
  · intro req row h
    simp [reputableRowPred, h, and_assoc]
  · intro req row h
    simp [newRowPred, h, and_assoc]
  · have hrep : getReputableNodes [demoRow 1] (toGetReputableRequest selectReq) =
        [convertOverlayNode (demoRow 1)] := by decide
    have hq : (toGetNewRequest selectReq).newNodeAmount = newNodeQuota selectReq := rfl
    have hprod : (provenNodeAmount selectReq : Rat) * selectReq.newNodePercentage = 0 := by
      norm_num [selectReq]
    have hquota : newNodeQuota selectReq = 0 := by
      unfold newNodeQuota
      rw [hprod]
      simp [intTrunc]
    have hnew : getNewNodes [demoRow 1] (toGetNewRequest selectReq) = [] := by
      simp [getNewNodes, findNewNodesRows, sqlLimit, hq, hquota]
    have hamt : provenNodeAmount selectReq = 1 := by decide
    simp [filterNodes, filterNodesOutcome, hrep, hnew, hamt]

/-- C6 witness: the proven predicate of the empty-exclusion request applied
to the stored qualifying row. -/
theorem empty_exclusion_ok_witness :
    (toGetReputableRequest selectReq).excluded = [] ∧
    (reputableRowPred (toGetReputableRequest selectReq) (demoRow 1) = true ↔
      (reputableAuditFloor (toGetReputableRequest selectReq) ≤ (demoRow 1).auditCount ∧
       (toGetReputableRequest selectReq).minReputation.auditSuccessRate ≤
         (demoRow 1).auditSuccessRate ∧
       (toGetReputableRequest selectReq).minReputation.uptimeCount ≤
         (demoRow 1).uptimeCount ∧
       (toGetReputableRequest selectReq).minReputation.uptimeRate ≤
         (demoRow 1).auditUptimeRate ∧
       (toGetReputableRequest selectReq).freeBandwidth ≤ (demoRow 1).freeBandwidth ∧
       (toGetReputableRequest selectReq).freeDisk ≤ (demoRow 1).freeDisk ∧
       (demoRow 1).nodeType = 2)) :=
  ⟨rfl, empty_exclusion_ok.1 (toGetReputableRequest selectReq) (demoRow 1) rfl⟩

/-- C10: when the proven-node query fails, `FilterNodes` returns no node
list at all together with the propagated error; and when the new-node query
fails, the same happens even though the proven query had already succeeded
with an arbitrary (possibly non-empty) list of qualifying nodes — a partial
result is never returned for a query failure. -/
theorem query_failure_no_partial {ε : Type} (e : ε) (reputableNodes : List Node)
    (newOutcome : Except ε (List Node)) (amt : Int) :
    filterNodesOutcome (Except.error e) newOutcome amt = (none, some (.queryFailure e)) ∧
    filterNodesOutcome (Except.ok reputableNodes) (Except.error e) amt =
      (none, some (.queryFailure e)) :=
  ⟨rfl, rfl⟩

end Storj
